import Mathlib

/-!
Verification of the gevent psycopg2 connection pool
(src/django_psycopg2_pool/gevent/psycopg2_pool.py).

The pool logic is sequential between scheduler yield points, so we model it as
plain state-passing functions.  A `PoolState` mirrors the mutable fields of
`DatabaseConnectionPool` (`maxsize`, `pool` queue, `size`, `gets`, `puts`); a
`Conn` carries the observable flags of an external psycopg2 connection that the
pool code reads (`closed`, `isolation_level`) together with flags describing
how the external calls `commit()`, `rollback()` and `close()` behave on it
(whether they raise).  Every call the pool makes on a connection is recorded in
an event trace so that claims of the form "calls commit exactly once" or
"never calls rollback" become statements about the trace.
-/

namespace PsycoPool

/-- Observable state of one external psycopg2 connection, as read by the pool:
the `closed` flag and the current `isolation_level`, plus behaviour flags for
the external calls the pool may make (`commit()`, `rollback()`, `close()`):
`commitRaises` means a `conn.commit()` call raises, and similarly for the
other two.  `id` identifies the connection object in the event trace. -/
structure Conn where
  id : Nat
  closed : Bool
  isolation : Int
  commitRaises : Bool
  rollbackRaises : Bool
  closeRaises : Bool
deriving DecidableEq, Repr

/-- The mutable fields of `DatabaseConnectionPool.__init__`: `maxsize`, the
FIFO queue `pool` (head = next item `Queue.get` returns), and the counters
`size`, `gets`, `puts`.  Python integers are modelled as `Int` for `maxsize`
and `size` (both may in principle go negative or be compared signed). -/
structure PoolState where
  maxsize : Int
  pool : List Conn
  size : Int
  gets : Nat
  puts : Nat
deriving DecidableEq, Repr

/-- Calls the pool code makes on connections, in order: `set_isolation_level`,
`commit`, `rollback`, the `gevent.get_hub().handle_error` report issued by
`_rollback` when the rollback raised, `close` (from `closeall`), and
`self.put` returning a connection to the idle queue. -/
inductive Event where
  | setIso (c : Nat) (l : Int)
  | commit (c : Nat)
  | rollback (c : Nat)
  | reportRollbackFailure (c : Nat)
  | close (c : Nat)
  | putConn (c : Nat)
deriving DecidableEq, Repr

def isCommitEv : Event → Bool
  | Event.commit _ => true
  | _ => false

def isRollbackEv : Event → Bool
  | Event.rollback _ => true
  | _ => false

def isPutEv : Event → Bool
  | Event.putConn _ => true
  | _ => false

def isCloseEv : Event → Bool
  | Event.close _ => true
  | _ => false

def isSetIsoEv : Event → Bool
  | Event.setIso _ _ => true
  | _ => false

/-- A Python value passed as the `maxsize` argument of
`DatabaseConnectionPool.__init__`.  `isinstance(maxsize, (int, long))` is
modelled by the `int` constructor (covering both Python 2 `int` and `long`);
the remaining constructors are non-integer values (`None`, a float, a
string), all of which fail the `isinstance` check. -/
inductive PyVal where
  | int (n : Int)
  | pyNone
  | pyFloat
  | pyStr (s : String)
deriving DecidableEq, Repr

/-- `DatabaseConnectionPool.__init__(maxsize)`: raise `TypeError` when
`maxsize` is not an integer, otherwise store it and start with an empty
queue and all counters zero.  The source performs no positivity check. -/
def initPool : PyVal → Except String PoolState
  | PyVal.int n => Except.ok { maxsize := n, pool := [], size := 0, gets := 0, puts := 0 }
  | _ => Except.error "Expected integer"

/-- Outcome of `DatabaseConnectionPool.get()`: a connection popped from the
idle queue, a freshly created one, a `create_connection` failure propagating
out, or the caller suspending on `pool.get()` because the queue is empty
(the blocking branch of the gevent queue). -/
inductive GetResult where
  | popped (c : Conn)
  | created (c : Conn)
  | creationFailed
  | blocked
deriving DecidableEq, Repr

/-- `DatabaseConnectionPool.get()`.  `factory` models
`self.create_connection()`: `some c` means the factory returns `c`, `none`
means it raises.  Mirrors the source: increment `gets`, read `qsize`, then
either pop from the queue (blocking when it is empty) or increment `size`,
call the factory and roll `size` back if the factory raised. -/
def get (s : PoolState) (factory : Option Conn) : GetResult × PoolState :=
  let s1 : PoolState := { s with gets := s.gets + 1 }
  let pool_size := s1.pool.length
  if s1.size ≥ s1.maxsize ∨ pool_size ≠ 0 then
    match s1.pool with
    | c :: rest => (GetResult.popped c, { s1 with pool := rest })
    | [] => (GetResult.blocked, s1)
  else
    let s2 : PoolState := { s1 with size := s1.size + 1 }
    match factory with
    | some c => (GetResult.created c, s2)
    | none => (GetResult.creationFailed, { s2 with size := s2.size - 1 })

/-- `DatabaseConnectionPool.put(item)`: push onto the queue, increment
`puts`. -/
def put (s : PoolState) (c : Conn) : PoolState :=
  { s with pool := s.pool ++ [c], puts := s.puts + 1 }

/-- The `while not self.pool.empty()` loop of `closeall`, recorded as one
`close` event per popped connection.  The `try: conn.close() except
Exception: pass` swallows any error `close` raises, so the loop continues
past a connection with `closeRaises` set and the loop body is total. -/
def drainLoop : List Conn → List Event
  | [] => []
  | c :: rest => Event.close c.id :: drainLoop rest

/-- `DatabaseConnectionPool.closeall()`: pop and close every idle connection,
ignoring close errors.  Only the queue changes; `size`, `maxsize` and the
counters are untouched. -/
def closeall (s : PoolState) : PoolState × List Event :=
  ({ s with pool := [] }, drainLoop s.pool)

/-- The isolation-level prologue of `connection()` / `cursor()`: when a level
is requested and the connection is already at it, forget the request
(`isolation_level = None`), otherwise call `set_isolation_level`.  Returns
the (possibly cleared) request, the connection handed to the unit of work,
and the trace of the prologue. -/
def isoAdjust (c : Conn) (iso : Option Int) : Option Int × Conn × List Event :=
  match iso with
  | none => (none, c, [])
  | some L =>
    if c.isolation = L then (none, c, [])
    else (some L, { c with isolation := L }, [Event.setIso c.id L])

/-- The connection pushed back by the `finally` clause: when an isolation
request survived the prologue, `set_isolation_level(isolation_level)` is
called once more with the same requested level before `put`. -/
def restoreConn (c : Conn) (iso2 : Option Int) : Conn :=
  match iso2 with
  | none => c
  | some L => { c with isolation := L }

/-- The `finally` clause of `connection()` / `cursor()` in the case
`conn is not None and not conn.closed`: re-set the isolation level if a
request survived the prologue, then `self.put(conn)`. -/
def finallyRelease (s : PoolState) (c : Conn) (iso2 : Option Int) : PoolState × List Event :=
  match iso2 with
  | none => (put s c, [Event.putConn c.id])
  | some L => (put s { c with isolation := L }, [Event.setIso c.id L, Event.putConn c.id])

/-- How a checkout terminates, as seen by the caller of the context
manager. -/
inductive ScopeResult where
  | committed
  | workErrorRaised
  | commitOnClosedRaised
  | commitErrorRaised
  | acquireBlocked
  | creationErrorRaised
deriving DecidableEq, Repr

/-- The shared `try / except / else / finally` body of `connection()` and
`cursor()`, entered with pool state `s` after `self.get()` returned `c`.
`work` is the caller's unit of work: given the connection after the
isolation prologue it returns whether it raised and the connection's state
afterwards (the work may have flipped the `closed` flag).

- except: if `conn.closed`, set `conn = None`, run `closeall()`, re-raise;
  otherwise `conn = self._rollback(conn)` (which reports a failing rollback
  via the hub and returns `None`) and re-raise the original error.
- else: if `conn.closed`, raise the `OperationalError` (cannot commit on a
  closed connection); otherwise `conn.commit()`, which may itself raise.
- finally: if `conn is not None and not conn.closed`, re-set the requested
  isolation level (if any survived the prologue) and `self.put(conn)`. -/
def scopeBody (s : PoolState) (c : Conn) (iso : Option Int)
    (work : Conn → Bool × Conn) : ScopeResult × PoolState × List Event :=
  let a := isoAdjust c iso
  let w := work a.2.1
  if w.1 then
    if w.2.closed then
      let cl := closeall s
      (ScopeResult.workErrorRaised, cl.1, a.2.2 ++ cl.2)
    else if w.2.rollbackRaises then
      (ScopeResult.workErrorRaised, s,
        a.2.2 ++ [Event.rollback w.2.id, Event.reportRollbackFailure w.2.id])
    else
      let f := finallyRelease s w.2 a.1
      (ScopeResult.workErrorRaised, f.1, a.2.2 ++ [Event.rollback w.2.id] ++ f.2)
  else
    if w.2.closed then
      (ScopeResult.commitOnClosedRaised, s, a.2.2)
    else
      let f := finallyRelease s w.2 a.1
      ((if w.2.commitRaises then ScopeResult.commitErrorRaised else ScopeResult.committed),
        f.1, a.2.2 ++ [Event.commit w.2.id] ++ f.2)

/-- `DatabaseConnectionPool.connection(isolation_level)`: acquire via
`self.get()`, then run the shared scope body.  A blocked acquire or a
factory failure never reaches the body. -/
def connectionScope (s0 : PoolState) (factory : Option Conn) (iso : Option Int)
    (work : Conn → Bool × Conn) : ScopeResult × PoolState × List Event :=
  match get s0 factory with
  | (GetResult.popped c, s) => scopeBody s c iso work
  | (GetResult.created c, s) => scopeBody s c iso work
  | (GetResult.creationFailed, s) => (ScopeResult.creationErrorRaised, s, [])
  | (GetResult.blocked, s) => (ScopeResult.acquireBlocked, s, [])

/-- `DatabaseConnectionPool.cursor(*args, **kwargs)`: identical pool and
transaction logic to `connection()` (the source duplicates the body verbatim;
the only difference is yielding `conn.cursor(...)` instead of `conn`, which
does not touch pool state). -/
def cursorScope (s0 : PoolState) (factory : Option Conn) (iso : Option Int)
    (work : Conn → Bool × Conn) : ScopeResult × PoolState × List Event :=
  match get s0 factory with
  | (GetResult.popped c, s) => scopeBody s c iso work
  | (GetResult.created c, s) => scopeBody s c iso work
  | (GetResult.creationFailed, s) => (ScopeResult.creationErrorRaised, s, [])
  | (GetResult.blocked, s) => (ScopeResult.acquireBlocked, s, [])

/-- Successful acquisition: `self.get()` returned a connection (popped or
freshly created), together with the pool state at that point. -/
def acquired (s0 : PoolState) (factory : Option Conn) : Option (Conn × PoolState) :=
  match get s0 factory with
  | (GetResult.popped c, s) => some (c, s)
  | (GetResult.created c, s) => some (c, s)
  | _ => none

/-- The size invariant claimed for the pool. -/
def sizeInv (s : PoolState) : Prop := 0 ≤ s.size ∧ s.size ≤ s.maxsize

example :
    get ⟨2, [], 0, 0, 0⟩ (some ⟨7, false, 0, false, false, false⟩)
    = (GetResult.created ⟨7, false, 0, false, false, false⟩, ⟨2, [], 1, 1, 0⟩) := by
  decide

/-! ### Helper lemmas -/

theorem cursorScope_eq_connectionScope : cursorScope = connectionScope := rfl

theorem acquired_run (s0 : PoolState) (f : Option Conn) (iso : Option Int)
    (w : Conn → Bool × Conn) (c : Conn) (s : PoolState)
    (h : acquired s0 f = some (c, s)) :
    connectionScope s0 f iso w = scopeBody s c iso w := by
  rcases hg : get s0 f with ⟨r, s1⟩
  unfold acquired at h
  rw [hg] at h
  unfold connectionScope
  rw [hg]
  cases r <;> simp_all

theorem finallyRelease_fst (s : PoolState) (c : Conn) (iso2 : Option Int) :
    (finallyRelease s c iso2).1 = put s (restoreConn c iso2) := by
  cases iso2 <;> rfl

theorem finallyRelease_filter (s : PoolState) (c : Conn) (iso2 : Option Int) :
    ((finallyRelease s c iso2).2).filter isCommitEv = []
    ∧ ((finallyRelease s c iso2).2).filter isRollbackEv = []
    ∧ ((finallyRelease s c iso2).2).filter isPutEv = [Event.putConn c.id]
    ∧ ((finallyRelease s c iso2).2).filter isCloseEv = [] := by
  cases iso2 <;>
    simp [finallyRelease, isCommitEv, isRollbackEv, isPutEv, isCloseEv]

theorem isoAdjust_filter (c : Conn) (iso : Option Int) :
    ((isoAdjust c iso).2.2).filter isCommitEv = []
    ∧ ((isoAdjust c iso).2.2).filter isRollbackEv = []
    ∧ ((isoAdjust c iso).2.2).filter isPutEv = []
    ∧ ((isoAdjust c iso).2.2).filter isCloseEv = [] := by
  cases iso with
  | none => simp [isoAdjust]
  | some L =>
    by_cases h : c.isolation = L <;>
      simp [isoAdjust, h, isCommitEv, isRollbackEv, isPutEv, isCloseEv]

theorem drainLoop_eq_map (l : List Conn) :
    drainLoop l = l.map (fun c => Event.close c.id) := by
  induction l with
  | nil => rfl
  | cons c rest ih => simp [drainLoop, ih]

theorem drainLoop_filter (l : List Conn) :
    (drainLoop l).filter isCommitEv = []
    ∧ (drainLoop l).filter isRollbackEv = []
    ∧ (drainLoop l).filter isPutEv = [] := by
  induction l with
  | nil => exact ⟨rfl, rfl, rfl⟩
  | cons c rest ih =>
    simpa [drainLoop, isCommitEv, isRollbackEv, isPutEv] using ih

theorem drainLoop_filter_setIso (l : List Conn) :
    (drainLoop l).filter isSetIsoEv = [] := by
  induction l with
  | nil => rfl
  | cons c rest ih => simpa [drainLoop, isSetIsoEv] using ih

theorem scopeBody_commit (s : PoolState) (c c2 : Conn) (iso : Option Int)
    (w : Conn → Bool × Conn)
    (hw : w (isoAdjust c iso).2.1 = (false, c2)) (hcl : c2.closed = false) :
    scopeBody s c iso w =
      ((if c2.commitRaises then ScopeResult.commitErrorRaised else ScopeResult.committed),
        put s (restoreConn c2 (isoAdjust c iso).1),
        (isoAdjust c iso).2.2 ++ [Event.commit c2.id]
          ++ (finallyRelease s c2 (isoAdjust c iso).1).2) := by
  simp only [scopeBody, hw, hcl, Bool.false_eq_true, if_false, finallyRelease_fst]

theorem scopeBody_rollback (s : PoolState) (c c2 : Conn) (iso : Option Int)
    (w : Conn → Bool × Conn)
    (hw : w (isoAdjust c iso).2.1 = (true, c2)) (hcl : c2.closed = false)
    (hrb : c2.rollbackRaises = false) :
    scopeBody s c iso w =
      (ScopeResult.workErrorRaised,
        put s (restoreConn c2 (isoAdjust c iso).1),
        (isoAdjust c iso).2.2 ++ [Event.rollback c2.id]
          ++ (finallyRelease s c2 (isoAdjust c iso).1).2) := by
  simp only [scopeBody, hw, hcl, hrb, Bool.false_eq_true, if_false, if_true,
    finallyRelease_fst]

theorem scopeBody_rollback_fail (s : PoolState) (c c2 : Conn) (iso : Option Int)
    (w : Conn → Bool × Conn)
    (hw : w (isoAdjust c iso).2.1 = (true, c2)) (hcl : c2.closed = false)
    (hrb : c2.rollbackRaises = true) :
    scopeBody s c iso w =
      (ScopeResult.workErrorRaised, s,
        (isoAdjust c iso).2.2
          ++ [Event.rollback c2.id, Event.reportRollbackFailure c2.id]) := by
  simp only [scopeBody, hw, hcl, hrb, Bool.false_eq_true, if_false, if_true]

theorem scopeBody_raised_closed (s : PoolState) (c c2 : Conn) (iso : Option Int)
    (w : Conn → Bool × Conn)
    (hw : w (isoAdjust c iso).2.1 = (true, c2)) (hcl : c2.closed = true) :
    scopeBody s c iso w =
      (ScopeResult.workErrorRaised, { s with pool := [] },
        (isoAdjust c iso).2.2 ++ drainLoop s.pool) := by
  simp only [scopeBody, hw, hcl, if_true, closeall]

theorem scopeBody_success_closed (s : PoolState) (c c2 : Conn) (iso : Option Int)
    (w : Conn → Bool × Conn)
    (hw : w (isoAdjust c iso).2.1 = (false, c2)) (hcl : c2.closed = true) :
    scopeBody s c iso w =
      (ScopeResult.commitOnClosedRaised, s, (isoAdjust c iso).2.2) := by
  simp only [scopeBody, hw, hcl, Bool.false_eq_true, if_false, if_true]

theorem get_pop (s : PoolState) (f : Option Conn) (c : Conn) (rest : List Conn)
    (h : s.pool = c :: rest) :
    get s f = (GetResult.popped c, { s with gets := s.gets + 1, pool := rest }) := by
  simp only [get, h]
  rw [if_pos (Or.inr (by simp))]

theorem get_blocked (s : PoolState) (f : Option Conn)
    (hp : s.pool = []) (hsz : s.size ≥ s.maxsize) :
    get s f = (GetResult.blocked, { s with gets := s.gets + 1 }) := by
  simp only [get, hp]
  rw [if_pos (Or.inl hsz)]

theorem get_create (s : PoolState) (c : Conn)
    (hp : s.pool = []) (hsz : ¬ s.size ≥ s.maxsize) :
    get s (some c)
    = (GetResult.created c, { s with gets := s.gets + 1, size := s.size + 1 }) := by
  simp only [get, hp]
  rw [if_neg]
  simp [hsz]

theorem get_create_fail (s : PoolState)
    (hp : s.pool = []) (hsz : ¬ s.size ≥ s.maxsize) :
    get s none
    = (GetResult.creationFailed, { s with gets := s.gets + 1, size := s.size + 1 - 1 }) := by
  simp only [get, hp]
  rw [if_neg]
  simp [hsz]

/-- Exhaustive case analysis of `get`. -/
theorem get_cases (s : PoolState) (f : Option Conn) :
    (∃ c rest, s.pool = c :: rest
      ∧ get s f = (GetResult.popped c, { s with gets := s.gets + 1, pool := rest }))
    ∨ (s.pool = [] ∧ s.size ≥ s.maxsize
      ∧ get s f = (GetResult.blocked, { s with gets := s.gets + 1 }))
    ∨ (s.pool = [] ∧ ¬ s.size ≥ s.maxsize
      ∧ ((∃ c, f = some c
            ∧ get s f = (GetResult.created c,
                { s with gets := s.gets + 1, size := s.size + 1 }))
        ∨ (f = none
            ∧ get s f = (GetResult.creationFailed,
                { s with gets := s.gets + 1, size := s.size + 1 - 1 })))) := by
  rcases hp : s.pool with _ | ⟨c, rest⟩
  · by_cases hsz : s.size ≥ s.maxsize
    · refine Or.inr (Or.inl ⟨rfl, hsz, ?_⟩)
      rw [get_blocked s f hp hsz, hp]
    · refine Or.inr (Or.inr ⟨rfl, hsz, ?_⟩)
      cases f with
      | some c =>
        refine Or.inl ⟨c, rfl, ?_⟩
        rw [get_create s c hp hsz, hp]
      | none =>
        refine Or.inr ⟨rfl, ?_⟩
        rw [get_create_fail s hp hsz, hp]
  · refine Or.inl ⟨c, rest, rfl, ?_⟩
    rw [get_pop s f c rest hp]

theorem get_gets (s : PoolState) (f : Option Conn) :
    ((get s f).2).gets = s.gets + 1 := by
  rcases get_cases s f with ⟨c, rest, hp, he⟩ | ⟨hp, hsz, he⟩ | ⟨hp, hsz, ⟨c, hf, he⟩ | ⟨hf, he⟩⟩ <;>
    rw [he]

theorem get_puts (s : PoolState) (f : Option Conn) :
    ((get s f).2).puts = s.puts := by
  rcases get_cases s f with ⟨c, rest, hp, he⟩ | ⟨hp, hsz, he⟩ | ⟨hp, hsz, ⟨c, hf, he⟩ | ⟨hf, he⟩⟩ <;>
    rw [he]

theorem get_maxsize (s : PoolState) (f : Option Conn) :
    ((get s f).2).maxsize = s.maxsize := by
  rcases get_cases s f with ⟨c, rest, hp, he⟩ | ⟨hp, hsz, he⟩ | ⟨hp, hsz, ⟨c, hf, he⟩ | ⟨hf, he⟩⟩ <;>
    rw [he]

theorem acquired_puts (s0 : PoolState) (f : Option Conn) (c : Conn) (s : PoolState)
    (h : acquired s0 f = some (c, s)) : s.puts = s0.puts := by
  rcases hg : get s0 f with ⟨r, s1⟩
  unfold acquired at h
  rw [hg] at h
  have hp := get_puts s0 f
  rw [hg] at hp
  cases r <;> simp_all

theorem get_sizeInv (s : PoolState) (f : Option Conn) (h : sizeInv s) :
    sizeInv (get s f).2 := by
  obtain ⟨h0, h1⟩ := h
  rcases get_cases s f with ⟨c, rest, hp, he⟩ | ⟨hp, hsz, he⟩ | ⟨hp, hsz, ⟨c, hf, he⟩ | ⟨hf, he⟩⟩ <;>
    rw [he] <;> exact ⟨by simp; omega, by simp; omega⟩

theorem put_fields (s : PoolState) (c : Conn) :
    (put s c).size = s.size ∧ (put s c).maxsize = s.maxsize
    ∧ (put s c).gets = s.gets ∧ (put s c).puts = s.puts + 1
    ∧ (put s c).pool = s.pool ++ [c] :=
  ⟨rfl, rfl, rfl, rfl, rfl⟩

theorem closeall_fields (s : PoolState) :
    ((closeall s).1).size = s.size ∧ ((closeall s).1).maxsize = s.maxsize
    ∧ ((closeall s).1).gets = s.gets ∧ ((closeall s).1).puts = s.puts
    ∧ ((closeall s).1).pool = [] :=
  ⟨rfl, rfl, rfl, rfl, rfl⟩

theorem scopeBody_size (s : PoolState) (c : Conn) (iso : Option Int)
    (w : Conn → Bool × Conn) :
    ((scopeBody s c iso w).2.1).size = s.size
    ∧ ((scopeBody s c iso w).2.1).maxsize = s.maxsize := by
  rcases hw : w (isoAdjust c iso).2.1 with ⟨raised, c2⟩
  cases raised
  · cases hcl : c2.closed
    · rw [scopeBody_commit s c c2 iso w hw hcl]
      exact ⟨rfl, rfl⟩
    · rw [scopeBody_success_closed s c c2 iso w hw hcl]
      exact ⟨rfl, rfl⟩
  · cases hcl : c2.closed
    · cases hrb : c2.rollbackRaises
      · rw [scopeBody_rollback s c c2 iso w hw hcl hrb]
        exact ⟨rfl, rfl⟩
      · rw [scopeBody_rollback_fail s c c2 iso w hw hcl hrb]
        exact ⟨rfl, rfl⟩
    · rw [scopeBody_raised_closed s c c2 iso w hw hcl]
      exact ⟨rfl, rfl⟩

theorem connectionScope_sizeInv (s0 : PoolState) (f : Option Conn) (iso : Option Int)
    (w : Conn → Bool × Conn) (h : sizeInv s0) :
    sizeInv (connectionScope s0 f iso w).2.1 := by
  have hg := get_sizeInv s0 f h
  unfold connectionScope
  rcases hgr : get s0 f with ⟨r, s1⟩
  rw [hgr] at hg
  cases r with
  | popped c =>
    obtain ⟨a, b⟩ := scopeBody_size s1 c iso w
    exact ⟨by rw [a]; exact hg.1, by rw [a, b]; exact hg.2⟩
  | created c =>
    obtain ⟨a, b⟩ := scopeBody_size s1 c iso w
    exact ⟨by rw [a]; exact hg.1, by rw [a, b]; exact hg.2⟩
  | creationFailed => exact hg
  | blocked => exact hg

/-! ### Claims -/

/-- Claim C1: for every checkout (via `connection()` or `cursor()`) in which the
unit of work raises or finishes with the connection's `closed` flag true, the
transaction scope never calls `commit()` or `rollback()` on that connection and
never pushes it back onto the idle queue; additionally, if the unit of work
raised on a closed connection, all currently idle connections are popped and
closed (`closeall` is invoked). -/
theorem C1_dead_connection (s0 s : PoolState) (f : Option Conn) (iso : Option Int)
    (w : Conn → Bool × Conn) (c c2 : Conn) (raised : Bool)
    (hacq : acquired s0 f = some (c, s))
    (hw : w (isoAdjust c iso).2.1 = (raised, c2))
    (hclosed : c2.closed = true) :
    ((connectionScope s0 f iso w).2.2.filter isCommitEv = []
      ∧ (connectionScope s0 f iso w).2.2.filter isRollbackEv = []
      ∧ (connectionScope s0 f iso w).2.2.filter isPutEv = []
      ∧ ((connectionScope s0 f iso w).2.1).puts = s0.puts
      ∧ ((connectionScope s0 f iso w).2.1).pool = (if raised then [] else s.pool)
      ∧ (raised = true →
          connectionScope s0 f iso w
            = (ScopeResult.workErrorRaised, { s with pool := [] },
               (isoAdjust c iso).2.2 ++ drainLoop s.pool)))
    ∧ ((cursorScope s0 f iso w).2.2.filter isCommitEv = []
      ∧ (cursorScope s0 f iso w).2.2.filter isRollbackEv = []
      ∧ (cursorScope s0 f iso w).2.2.filter isPutEv = []
      ∧ ((cursorScope s0 f iso w).2.1).puts = s0.puts
      ∧ ((cursorScope s0 f iso w).2.1).pool = (if raised then [] else s.pool)
      ∧ (raised = true →
          cursorScope s0 f iso w
            = (ScopeResult.workErrorRaised, { s with pool := [] },
               (isoAdjust c iso).2.2 ++ drainLoop s.pool))) := by
  have hrun := acquired_run s0 f iso w c s hacq
  have hputs := acquired_puts s0 f c s hacq
  obtain ⟨e1, e2, e3, e4⟩ := isoAdjust_filter c iso
  obtain ⟨d1, d2, d3⟩ := drainLoop_filter s.pool
  have main :
      (connectionScope s0 f iso w).2.2.filter isCommitEv = []
      ∧ (connectionScope s0 f iso w).2.2.filter isRollbackEv = []
      ∧ (connectionScope s0 f iso w).2.2.filter isPutEv = []
      ∧ ((connectionScope s0 f iso w).2.1).puts = s0.puts
      ∧ ((connectionScope s0 f iso w).2.1).pool = (if raised then [] else s.pool)
      ∧ (raised = true →
          connectionScope s0 f iso w
            = (ScopeResult.workErrorRaised, { s with pool := [] },
               (isoAdjust c iso).2.2 ++ drainLoop s.pool)) := by
    rw [hrun]
    cases raised
    · rw [scopeBody_success_closed s c c2 iso w hw hclosed]
      exact ⟨e1, e2, e3, hputs, by simp, by simp⟩
    · rw [scopeBody_raised_closed s c c2 iso w hw hclosed]
      refine ⟨?_, ?_, ?_, hputs, by simp, fun _ => rfl⟩ <;>
        simp [List.filter_append, e1, e2, e3, d1, d2, d3]
  refine ⟨main, ?_⟩
  rw [cursorScope_eq_connectionScope]
  exact main

/-- Witness for C1: a fresh pool of size 2, a created connection, a unit of
work that raises after the connection silently closed; the scope emits no
commit event. -/
theorem C1_dead_connection_witness :
    (connectionScope ⟨2, [], 0, 0, 0⟩ (some ⟨7, false, 0, false, false, false⟩) none
      (fun c => (true, { c with closed := true }))).2.2.filter isCommitEv = [] :=
  (C1_dead_connection ⟨2, [], 0, 0, 0⟩ ⟨2, [], 1, 1, 0⟩
    (some ⟨7, false, 0, false, false, false⟩) none
    (fun c => (true, { c with closed := true }))
    ⟨7, false, 0, false, false, false⟩ ⟨7, true, 0, false, false, false⟩ true
    rfl rfl rfl).1.1

/-- Claim C2: a checkout whose unit of work completes without raising, with the
connection still open, calls `commit()` exactly once and then pushes the
connection back onto the idle queue, where a subsequent acquire can pop it. -/
theorem C2_commit_path (s0 s : PoolState) (f : Option Conn) (iso : Option Int)
    (w : Conn → Bool × Conn) (c c2 : Conn)
    (hacq : acquired s0 f = some (c, s))
    (hw : w (isoAdjust c iso).2.1 = (false, c2))
    (hcl : c2.closed = false) :
    ((connectionScope s0 f iso w).2.2
        = (isoAdjust c iso).2.2 ++ [Event.commit c2.id]
          ++ (finallyRelease s c2 (isoAdjust c iso).1).2
      ∧ (connectionScope s0 f iso w).2.2.filter isCommitEv = [Event.commit c2.id]
      ∧ ((connectionScope s0 f iso w).2.1).pool
          = s.pool ++ [restoreConn c2 (isoAdjust c iso).1]
      ∧ ((connectionScope s0 f iso w).2.1).puts = s0.puts + 1
      ∧ (∀ f2, ∃ c' s', get ((connectionScope s0 f iso w).2.1) f2 = (GetResult.popped c', s')
          ∧ (s.pool = [] → c' = restoreConn c2 (isoAdjust c iso).1)))
    ∧ ((cursorScope s0 f iso w).2.2
        = (isoAdjust c iso).2.2 ++ [Event.commit c2.id]
          ++ (finallyRelease s c2 (isoAdjust c iso).1).2
      ∧ (cursorScope s0 f iso w).2.2.filter isCommitEv = [Event.commit c2.id]
      ∧ ((cursorScope s0 f iso w).2.1).pool
          = s.pool ++ [restoreConn c2 (isoAdjust c iso).1]
      ∧ ((cursorScope s0 f iso w).2.1).puts = s0.puts + 1
      ∧ (∀ f2, ∃ c' s', get ((cursorScope s0 f iso w).2.1) f2 = (GetResult.popped c', s')
          ∧ (s.pool = [] → c' = restoreConn c2 (isoAdjust c iso).1))) := by
  have hrun := acquired_run s0 f iso w c s hacq
  have hputs := acquired_puts s0 f c s hacq
  obtain ⟨e1, e2, e3, e4⟩ := isoAdjust_filter c iso
  obtain ⟨g1, g2, g3, g4⟩ := finallyRelease_filter s c2 (isoAdjust c iso).1
  have main :
      (connectionScope s0 f iso w).2.2
        = (isoAdjust c iso).2.2 ++ [Event.commit c2.id]
          ++ (finallyRelease s c2 (isoAdjust c iso).1).2
      ∧ (connectionScope s0 f iso w).2.2.filter isCommitEv = [Event.commit c2.id]
      ∧ ((connectionScope s0 f iso w).2.1).pool
          = s.pool ++ [restoreConn c2 (isoAdjust c iso).1]
      ∧ ((connectionScope s0 f iso w).2.1).puts = s0.puts + 1
      ∧ (∀ f2, ∃ c' s', get ((connectionScope s0 f iso w).2.1) f2 = (GetResult.popped c', s')
          ∧ (s.pool = [] → c' = restoreConn c2 (isoAdjust c iso).1)) := by
    rw [hrun, scopeBody_commit s c c2 iso w hw hcl]
    refine ⟨rfl, ?_, rfl, ?_, ?_⟩
    · simp [List.filter_append, e1, g1, isCommitEv]
    · simp [put, hputs]
    · intro f2
      rcases hsp : s.pool with _ | ⟨q, qs⟩
      · refine ⟨restoreConn c2 (isoAdjust c iso).1, _,
          get_pop _ f2 _ [] (by simp [put, hsp]), fun _ => rfl⟩
      · refine ⟨q, _,
          get_pop _ f2 q (qs ++ [restoreConn c2 (isoAdjust c iso).1])
            (by simp [put, hsp]), fun hc => by simp [hsp] at hc⟩
  refine ⟨main, ?_⟩
  rw [cursorScope_eq_connectionScope]
  exact main

/-- Witness for C2: a successful unit of work on a fresh pool commits exactly
once. -/
theorem C2_commit_path_witness :
    (connectionScope ⟨2, [], 0, 0, 0⟩ (some ⟨7, false, 0, false, false, false⟩) none
      (fun c => (false, c))).2.2.filter isCommitEv = [Event.commit 7] :=
  (C2_commit_path ⟨2, [], 0, 0, 0⟩ ⟨2, [], 1, 1, 0⟩
    (some ⟨7, false, 0, false, false, false⟩) none (fun c => (false, c))
    ⟨7, false, 0, false, false, false⟩ ⟨7, false, 0, false, false, false⟩
    rfl rfl rfl).1.2.1

/-- Claim C3: a checkout whose unit of work raises on a still-open connection,
when `rollback()` succeeds, calls `rollback()` exactly once, re-raises the
original unit-of-work error, and returns the connection to the idle queue. -/
theorem C3_rollback_path (s0 s : PoolState) (f : Option Conn) (iso : Option Int)
    (w : Conn → Bool × Conn) (c c2 : Conn)
    (hacq : acquired s0 f = some (c, s))
    (hw : w (isoAdjust c iso).2.1 = (true, c2))
    (hcl : c2.closed = false)
    (hrb : c2.rollbackRaises = false) :
    ((connectionScope s0 f iso w).1 = ScopeResult.workErrorRaised
      ∧ (connectionScope s0 f iso w).2.2
          = (isoAdjust c iso).2.2 ++ [Event.rollback c2.id]
            ++ (finallyRelease s c2 (isoAdjust c iso).1).2
      ∧ (connectionScope s0 f iso w).2.2.filter isRollbackEv = [Event.rollback c2.id]
      ∧ ((connectionScope s0 f iso w).2.1).pool
          = s.pool ++ [restoreConn c2 (isoAdjust c iso).1]
      ∧ ((connectionScope s0 f iso w).2.1).puts = s0.puts + 1)
    ∧ ((cursorScope s0 f iso w).1 = ScopeResult.workErrorRaised
      ∧ (cursorScope s0 f iso w).2.2
          = (isoAdjust c iso).2.2 ++ [Event.rollback c2.id]
            ++ (finallyRelease s c2 (isoAdjust c iso).1).2
      ∧ (cursorScope s0 f iso w).2.2.filter isRollbackEv = [Event.rollback c2.id]
      ∧ ((cursorScope s0 f iso w).2.1).pool
          = s.pool ++ [restoreConn c2 (isoAdjust c iso).1]
      ∧ ((cursorScope s0 f iso w).2.1).puts = s0.puts + 1) := by
  have hrun := acquired_run s0 f iso w c s hacq
  have hputs := acquired_puts s0 f c s hacq
  obtain ⟨e1, e2, e3, e4⟩ := isoAdjust_filter c iso
  obtain ⟨g1, g2, g3, g4⟩ := finallyRelease_filter s c2 (isoAdjust c iso).1
  have main :
      (connectionScope s0 f iso w).1 = ScopeResult.workErrorRaised
      ∧ (connectionScope s0 f iso w).2.2
          = (isoAdjust c iso).2.2 ++ [Event.rollback c2.id]
            ++ (finallyRelease s c2 (isoAdjust c iso).1).2
      ∧ (connectionScope s0 f iso w).2.2.filter isRollbackEv = [Event.rollback c2.id]
      ∧ ((connectionScope s0 f iso w).2.1).pool
          = s.pool ++ [restoreConn c2 (isoAdjust c iso).1]
      ∧ ((connectionScope s0 f iso w).2.1).puts = s0.puts + 1 := by
    rw [hrun, scopeBody_rollback s c c2 iso w hw hcl hrb]
    refine ⟨rfl, rfl, ?_, rfl, ?_⟩
    · simp [List.filter_append, e2, g2, isRollbackEv]
    · simp [put, hputs]
  refine ⟨main, ?_⟩
  rw [cursorScope_eq_connectionScope]
  exact main

/-- Witness for C3: a raising unit of work on an open connection rolls back
exactly once. -/
theorem C3_rollback_path_witness :
    (connectionScope ⟨2, [], 0, 0, 0⟩ (some ⟨7, false, 0, false, false, false⟩) none
      (fun c => (true, c))).2.2.filter isRollbackEv = [Event.rollback 7] :=
  (C3_rollback_path ⟨2, [], 0, 0, 0⟩ ⟨2, [], 1, 1, 0⟩
    (some ⟨7, false, 0, false, false, false⟩) none (fun c => (true, c))
    ⟨7, false, 0, false, false, false⟩ ⟨7, false, 0, false, false, false⟩
    rfl rfl rfl rfl).1.2.2.1

/-- Claim C7: when the unit of work raises on an open connection and the
`rollback()` itself raises, the rollback failure is reported separately via the
hub, the original error is re-raised, and the connection is not returned to
the idle queue. -/
theorem C7_rollback_failure (s0 s : PoolState) (f : Option Conn) (iso : Option Int)
    (w : Conn → Bool × Conn) (c c2 : Conn)
    (hacq : acquired s0 f = some (c, s))
    (hw : w (isoAdjust c iso).2.1 = (true, c2))
    (hcl : c2.closed = false)
    (hrb : c2.rollbackRaises = true) :
    (connectionScope s0 f iso w
        = (ScopeResult.workErrorRaised, s,
           (isoAdjust c iso).2.2
             ++ [Event.rollback c2.id, Event.reportRollbackFailure c2.id])
      ∧ Event.reportRollbackFailure c2.id ∈ (connectionScope s0 f iso w).2.2
      ∧ (connectionScope s0 f iso w).2.2.filter isPutEv = []
      ∧ ((connectionScope s0 f iso w).2.1).pool = s.pool
      ∧ ((connectionScope s0 f iso w).2.1).puts = s0.puts)
    ∧ (cursorScope s0 f iso w
        = (ScopeResult.workErrorRaised, s,
           (isoAdjust c iso).2.2
             ++ [Event.rollback c2.id, Event.reportRollbackFailure c2.id])
      ∧ Event.reportRollbackFailure c2.id ∈ (cursorScope s0 f iso w).2.2
      ∧ (cursorScope s0 f iso w).2.2.filter isPutEv = []
      ∧ ((cursorScope s0 f iso w).2.1).pool = s.pool
      ∧ ((cursorScope s0 f iso w).2.1).puts = s0.puts) := by
  have hrun := acquired_run s0 f iso w c s hacq
  have hputs := acquired_puts s0 f c s hacq
  obtain ⟨e1, e2, e3, e4⟩ := isoAdjust_filter c iso
  have main :
      connectionScope s0 f iso w
        = (ScopeResult.workErrorRaised, s,
           (isoAdjust c iso).2.2
             ++ [Event.rollback c2.id, Event.reportRollbackFailure c2.id])
      ∧ Event.reportRollbackFailure c2.id ∈ (connectionScope s0 f iso w).2.2
      ∧ (connectionScope s0 f iso w).2.2.filter isPutEv = []
      ∧ ((connectionScope s0 f iso w).2.1).pool = s.pool
      ∧ ((connectionScope s0 f iso w).2.1).puts = s0.puts := by
    rw [hrun, scopeBody_rollback_fail s c c2 iso w hw hcl hrb]
    refine ⟨rfl, by simp, ?_, rfl, hputs⟩
    simp [List.filter_append, e3, isPutEv]
  refine ⟨main, ?_⟩
  rw [cursorScope_eq_connectionScope]
  exact main

/-- Witness for C7: a failing rollback is reported and the connection is
dropped, with the pool state exactly as after the acquire. -/
theorem C7_rollback_failure_witness :
    connectionScope ⟨2, [], 0, 0, 0⟩ (some ⟨8, false, 0, false, true, false⟩) none
      (fun c => (true, c))
    = (ScopeResult.workErrorRaised, ⟨2, [], 1, 1, 0⟩,
       [Event.rollback 8, Event.reportRollbackFailure 8]) :=
  (C7_rollback_failure ⟨2, [], 0, 0, 0⟩ ⟨2, [], 1, 1, 0⟩
    (some ⟨8, false, 0, false, true, false⟩) none (fun c => (true, c))
    ⟨8, false, 0, false, true, false⟩ ⟨8, false, 0, false, true, false⟩
    rfl rfl rfl rfl).1.1

/-- Claim C10 (implicit): when the unit of work succeeds, the connection stays
open, but `commit()` itself raises, the commit error propagates and the
connection is nevertheless returned to the idle queue (with the requested
isolation level re-applied if one was set), with no rollback attempted. -/
theorem C10_commit_error_released (s0 s : PoolState) (f : Option Conn) (iso : Option Int)
    (w : Conn → Bool × Conn) (c c2 : Conn)
    (hacq : acquired s0 f = some (c, s))
    (hw : w (isoAdjust c iso).2.1 = (false, c2))
    (hcl : c2.closed = false)
    (hcm : c2.commitRaises = true) :
    ((connectionScope s0 f iso w).1 = ScopeResult.commitErrorRaised
      ∧ ((connectionScope s0 f iso w).2.1).pool
          = s.pool ++ [restoreConn c2 (isoAdjust c iso).1]
      ∧ (connectionScope s0 f iso w).2.2.filter isRollbackEv = []
      ∧ ((connectionScope s0 f iso w).2.1).puts = s0.puts + 1)
    ∧ ((cursorScope s0 f iso w).1 = ScopeResult.commitErrorRaised
      ∧ ((cursorScope s0 f iso w).2.1).pool
          = s.pool ++ [restoreConn c2 (isoAdjust c iso).1]
      ∧ (cursorScope s0 f iso w).2.2.filter isRollbackEv = []
      ∧ ((cursorScope s0 f iso w).2.1).puts = s0.puts + 1) := by
  have hrun := acquired_run s0 f iso w c s hacq
  have hputs := acquired_puts s0 f c s hacq
  obtain ⟨e1, e2, e3, e4⟩ := isoAdjust_filter c iso
  obtain ⟨g1, g2, g3, g4⟩ := finallyRelease_filter s c2 (isoAdjust c iso).1
  have main :
      (connectionScope s0 f iso w).1 = ScopeResult.commitErrorRaised
      ∧ ((connectionScope s0 f iso w).2.1).pool
          = s.pool ++ [restoreConn c2 (isoAdjust c iso).1]
      ∧ (connectionScope s0 f iso w).2.2.filter isRollbackEv = []
      ∧ ((connectionScope s0 f iso w).2.1).puts = s0.puts + 1 := by
    rw [hrun, scopeBody_commit s c c2 iso w hw hcl]
    refine ⟨by rw [hcm]; rfl, rfl, ?_, ?_⟩
    · simp [List.filter_append, e2, g2, isRollbackEv]
    · simp [put, hputs]
  refine ⟨main, ?_⟩
  rw [cursorScope_eq_connectionScope]
  exact main

/-- Witness for C10: a raising `commit()` propagates as a commit error while
the connection is still put back. -/
theorem C10_commit_error_released_witness :
    (connectionScope ⟨2, [], 0, 0, 0⟩ (some ⟨9, false, 0, true, false, false⟩) none
      (fun c => (false, c))).1 = ScopeResult.commitErrorRaised :=
  (C10_commit_error_released ⟨2, [], 0, 0, 0⟩ ⟨2, [], 1, 1, 0⟩
    (some ⟨9, false, 0, true, false, false⟩) none (fun c => (false, c))
    ⟨9, false, 0, true, false, false⟩ ⟨9, false, 0, true, false, false⟩
    rfl rfl rfl rfl).1.1

/-- Counterexample to claim C4: a connection created at isolation level 0,
checked out with requested level 1 and a successful unit of work, re-enters
the idle queue at level 1 — the `finally` clause calls
`set_isolation_level` with the requested level again, and no call ever
restores the original level 0. -/
theorem C4_counterexample :
    connectionScope ⟨1, [], 0, 0, 0⟩ (some ⟨7, false, 0, false, false, false⟩) (some 1)
      (fun c => (false, c))
    = (ScopeResult.committed, ⟨1, [⟨7, false, 1, false, false, false⟩], 1, 1, 1⟩,
       [Event.setIso 7 1, Event.commit 7, Event.setIso 7 1, Event.putConn 7])
    ∧ Event.setIso 7 0
        ∉ (connectionScope ⟨1, [], 0, 0, 0⟩ (some ⟨7, false, 0, false, false, false⟩)
            (some 1) (fun c => (false, c))).2.2 := by
  exact ⟨by decide, by decide⟩

/-- Claim C4 as amended, over every checkout requesting isolation level `L`
(any work outcome `(raised, c2)`): when `L` differs from the connection's
current level, `L` is set for the duration of the scope, and on every path on
which the connection re-enters the idle queue — successful work (whether or
not the subsequent `commit()` raises) and raising work with a succeeding
rollback — the `finally` clause sets `L` once more right before `put`, so the
connection re-enters the queue at level `L` (the original level is not saved
and not restored); when `L` equals the current level, no
`set_isolation_level` call is made on any path. -/
theorem C4_isolation_amended (s0 s : PoolState) (f : Option Conn) (L : Int)
    (w : Conn → Bool × Conn) (c c2 : Conn) (raised : Bool)
    (hacq : acquired s0 f = some (c, s))
    (hw : w (isoAdjust c (some L)).2.1 = (raised, c2)) :
    ((c.isolation ≠ L → (isoAdjust c (some L)).2.1.isolation = L)
      ∧ (c.isolation ≠ L → raised = false → c2.closed = false →
          ((connectionScope s0 f (some L) w).2.1).pool
              = s.pool ++ [{ c2 with isolation := L }]
          ∧ (connectionScope s0 f (some L) w).2.2
              = [Event.setIso c.id L, Event.commit c2.id,
                 Event.setIso c2.id L, Event.putConn c2.id])
      ∧ (c.isolation ≠ L → raised = true → c2.closed = false →
            c2.rollbackRaises = false →
          ((connectionScope s0 f (some L) w).2.1).pool
              = s.pool ++ [{ c2 with isolation := L }]
          ∧ (connectionScope s0 f (some L) w).2.2
              = [Event.setIso c.id L, Event.rollback c2.id,
                 Event.setIso c2.id L, Event.putConn c2.id])
      ∧ (c.isolation = L →
          (connectionScope s0 f (some L) w).2.2.filter isSetIsoEv = []))
    ∧ ((c.isolation ≠ L → (isoAdjust c (some L)).2.1.isolation = L)
      ∧ (c.isolation ≠ L → raised = false → c2.closed = false →
          ((cursorScope s0 f (some L) w).2.1).pool
              = s.pool ++ [{ c2 with isolation := L }]
          ∧ (cursorScope s0 f (some L) w).2.2
              = [Event.setIso c.id L, Event.commit c2.id,
                 Event.setIso c2.id L, Event.putConn c2.id])
      ∧ (c.isolation ≠ L → raised = true → c2.closed = false →
            c2.rollbackRaises = false →
          ((cursorScope s0 f (some L) w).2.1).pool
              = s.pool ++ [{ c2 with isolation := L }]
          ∧ (cursorScope s0 f (some L) w).2.2
              = [Event.setIso c.id L, Event.rollback c2.id,
                 Event.setIso c2.id L, Event.putConn c2.id])
      ∧ (c.isolation = L →
          (cursorScope s0 f (some L) w).2.2.filter isSetIsoEv = [])) := by
  have hrun := acquired_run s0 f (some L) w c s hacq
  have mainSet : c.isolation ≠ L → (isoAdjust c (some L)).2.1.isolation = L := by
    intro h
    simp [isoAdjust, h]
  have mainCommit : c.isolation ≠ L → raised = false → c2.closed = false →
      ((connectionScope s0 f (some L) w).2.1).pool
          = s.pool ++ [{ c2 with isolation := L }]
      ∧ (connectionScope s0 f (some L) w).2.2
          = [Event.setIso c.id L, Event.commit c2.id,
             Event.setIso c2.id L, Event.putConn c2.id] := by
    intro hne hr hcl
    subst hr
    have hA : isoAdjust c (some L)
        = (some L, { c with isolation := L }, [Event.setIso c.id L]) := by
      simp [isoAdjust, hne]
    rw [hrun, scopeBody_commit s c c2 (some L) w hw hcl, hA]
    exact ⟨rfl, rfl⟩
  have mainRollback : c.isolation ≠ L → raised = true → c2.closed = false →
      c2.rollbackRaises = false →
      ((connectionScope s0 f (some L) w).2.1).pool
          = s.pool ++ [{ c2 with isolation := L }]
      ∧ (connectionScope s0 f (some L) w).2.2
          = [Event.setIso c.id L, Event.rollback c2.id,
             Event.setIso c2.id L, Event.putConn c2.id] := by
    intro hne hr hcl hrb
    subst hr
    have hA : isoAdjust c (some L)
        = (some L, { c with isolation := L }, [Event.setIso c.id L]) := by
      simp [isoAdjust, hne]
    rw [hrun, scopeBody_rollback s c c2 (some L) w hw hcl hrb, hA]
    exact ⟨rfl, rfl⟩
  have mainEq : c.isolation = L →
      (connectionScope s0 f (some L) w).2.2.filter isSetIsoEv = [] := by
    intro heq
    have hA : isoAdjust c (some L) = (none, c, []) := by
      simp [isoAdjust, heq]
    rw [hrun]
    cases raised
    · cases hcl : c2.closed
      · rw [scopeBody_commit s c c2 (some L) w hw hcl, hA]
        simp [finallyRelease, isSetIsoEv]
      · rw [scopeBody_success_closed s c c2 (some L) w hw hcl, hA]
        rfl
    · cases hcl : c2.closed
      · cases hrb : c2.rollbackRaises
        · rw [scopeBody_rollback s c c2 (some L) w hw hcl hrb, hA]
          simp [finallyRelease, isSetIsoEv]
        · rw [scopeBody_rollback_fail s c c2 (some L) w hw hcl hrb, hA]
          simp [isSetIsoEv]
      · rw [scopeBody_raised_closed s c c2 (some L) w hw hcl, hA]
        simpa using drainLoop_filter_setIso s.pool
  refine ⟨⟨mainSet, mainCommit, mainRollback, mainEq⟩, mainSet, ?_, ?_, ?_⟩ <;>
    rw [cursorScope_eq_connectionScope]
  · exact mainCommit
  · exact mainRollback
  · exact mainEq

/-- Witness for the amended C4: requesting level 1 on a connection at level 0
hands the unit of work a connection at level 1. -/
theorem C4_isolation_amended_witness :
    (isoAdjust ⟨7, false, 0, false, false, false⟩ (some 1)).2.1.isolation = 1 :=
  ((C4_isolation_amended ⟨1, [], 0, 0, 0⟩ ⟨1, [], 1, 1, 0⟩
    (some ⟨7, false, 0, false, false, false⟩) 1 (fun c => (false, c))
    ⟨7, false, 0, false, false, false⟩ ⟨7, false, 1, false, false, false⟩ false
    rfl rfl).1.1 (by decide))

/-- Claim C5: `get` increments `gets` unconditionally on entry; a non-empty
idle queue (or a reached size ceiling) leads to a (blocking) pop from the
queue; otherwise `size` is incremented and the factory invoked, and a factory
failure rolls `size` back before the error propagates. -/
theorem C5_acquire (s : PoolState) (f : Option Conn) :
    ((get s f).2).gets = s.gets + 1
    ∧ (∀ c rest, s.pool = c :: rest →
         get s f = (GetResult.popped c, { s with gets := s.gets + 1, pool := rest }))
    ∧ (s.pool = [] → s.size ≥ s.maxsize →
         get s f = (GetResult.blocked, { s with gets := s.gets + 1 }))
    ∧ (s.pool = [] → ¬ s.size ≥ s.maxsize → ∀ c, f = some c →
         get s f = (GetResult.created c, { s with gets := s.gets + 1, size := s.size + 1 }))
    ∧ (s.pool = [] → ¬ s.size ≥ s.maxsize → f = none →
         get s f = (GetResult.creationFailed,
           { s with gets := s.gets + 1, size := s.size + 1 - 1 })
         ∧ ((get s f).2).size = s.size) := by
  refine ⟨get_gets s f, ?_, ?_, ?_, ?_⟩
  · intro c rest h
    exact get_pop s f c rest h
  · intro hp hsz
    exact get_blocked s f hp hsz
  · intro hp hsz c hf
    subst hf
    exact get_create s c hp hsz
  · intro hp hsz hf
    subst hf
    refine ⟨get_create_fail s hp hsz, ?_⟩
    rw [get_create_fail s hp hsz]
    show s.size + 1 - 1 = s.size
    omega

/-- Witness for C5: an exhausted pool (size at the ceiling, empty queue)
blocks the caller. -/
theorem C5_acquire_witness :
    get ⟨3, [], 3, 0, 0⟩ none = (GetResult.blocked, ⟨3, [], 3, 1, 0⟩) :=
  (C5_acquire ⟨3, [], 3, 0, 0⟩ none).2.2.1 rfl (by decide)

/-- Claim C6: for a pool constructed with a positive integer maxsize the
invariant `0 <= size <= maxsize` holds at construction and is preserved by
`get` (including failed creation), `put`, `closeall`, and every checkout via
`connection()` or `cursor()`. -/
theorem C6_size_invariant (n : Int) (hn : 1 ≤ n) (s : PoolState) (hs : sizeInv s)
    (f : Option Conn) (iso : Option Int) (w : Conn → Bool × Conn) (c : Conn) :
    (initPool (PyVal.int n) = Except.ok ⟨n, [], 0, 0, 0⟩ ∧ sizeInv ⟨n, [], 0, 0, 0⟩)
    ∧ sizeInv (get s f).2
    ∧ sizeInv (put s c)
    ∧ sizeInv (closeall s).1
    ∧ sizeInv (connectionScope s f iso w).2.1
    ∧ sizeInv (cursorScope s f iso w).2.1 := by
  refine ⟨⟨rfl, le_refl 0, by show (0 : Int) ≤ n; omega⟩,
    get_sizeInv s f hs, ⟨hs.1, hs.2⟩, ⟨hs.1, hs.2⟩,
    connectionScope_sizeInv s f iso w hs, ?_⟩
  rw [cursorScope_eq_connectionScope]
  exact connectionScope_sizeInv s f iso w hs

/-- Witness for C6: the invariant holds after an acquire on a concrete pool
of size ceiling 3 with one live connection. -/
theorem C6_size_invariant_witness :
    sizeInv (get ⟨3, [], 1, 0, 0⟩ none).2 :=
  (C6_size_invariant 3 (by decide) ⟨3, [], 1, 0, 0⟩ ⟨by decide, by decide⟩
    none none (fun c => (false, c)) ⟨0, false, 0, false, false, false⟩).2.1

/-- Counterexample to claim C8: `__init__` accepts the non-positive integers
0 and -5 as maxsize without any error; only the integer type is checked, so
"construction fails for every maxsize that is not a positive integer" is
false at the concrete input 0. -/
theorem C8_counterexample :
    initPool (PyVal.int 0) = Except.ok ⟨0, [], 0, 0, 0⟩
    ∧ initPool (PyVal.int (-5)) = Except.ok ⟨-5, [], 0, 0, 0⟩ :=
  ⟨rfl, rfl⟩

/-- Claim C8 as amended: pool construction fails (`TypeError`) exactly for
non-integer maxsize values (`None`, a float, a string); every integer,
including zero and negative ones, is accepted at construction time. -/
theorem C8_type_check_amended (n : Int) (s : String) :
    initPool (PyVal.int n) = Except.ok ⟨n, [], 0, 0, 0⟩
    ∧ initPool PyVal.pyNone = Except.error "Expected integer"
    ∧ initPool PyVal.pyFloat = Except.error "Expected integer"
    ∧ initPool (PyVal.pyStr s) = Except.error "Expected integer" :=
  ⟨rfl, rfl, rfl, rfl⟩

/-- Claim C9: `closeall` pops and closes every idle connection (one `close`
call per queued connection, in queue order, errors ignored), leaves the idle
queue empty, and changes nothing else: `size`, `maxsize`, `gets` and `puts`
are untouched, and connections checked out (absent from the queue) are not
referenced at all. -/
theorem C9_closeall (s : PoolState) :
    (closeall s).1 = { s with pool := [] }
    ∧ ((closeall s).1).pool = []
    ∧ ((closeall s).1).size = s.size
    ∧ ((closeall s).1).maxsize = s.maxsize
    ∧ ((closeall s).1).gets = s.gets
    ∧ ((closeall s).1).puts = s.puts
    ∧ (closeall s).2 = s.pool.map (fun c => Event.close c.id)
    ∧ ((closeall s).2).length = s.pool.length
    ∧ ∀ c ∈ s.pool, Event.close c.id ∈ (closeall s).2 := by
  refine ⟨rfl, rfl, rfl, rfl, rfl, rfl, drainLoop_eq_map s.pool, ?_, ?_⟩
  · show (drainLoop s.pool).length = s.pool.length
    rw [drainLoop_eq_map]
    exact List.length_map s.pool _
  · intro c hc
    show Event.close c.id ∈ drainLoop s.pool
    rw [drainLoop_eq_map]
    exact List.mem_map_of_mem _ hc

/-- Witness for C9: a queue holding one connection whose `close` raises is
still fully drained and the close call is recorded. -/
theorem C9_closeall_witness :
    Event.close 7 ∈ (closeall ⟨1, [⟨7, false, 0, false, false, true⟩], 1, 0, 0⟩).2 :=
  (C9_closeall ⟨1, [⟨7, false, 0, false, false, true⟩], 1, 0, 0⟩).2.2.2.2.2.2.2.2
    ⟨7, false, 0, false, false, true⟩ (by decide)

end PsycoPool
